import Mathlib

/-!
Verification development for the maintenance-script suite
(mrhunsaker/Graph_Digitizer_Java_Implementation): a Javadoc-coverage
scanner (`.scripts/find_missing_javadoc.py`), a JSON log viewer
(`graph-digitizer-java/scripts/ingest_json_log.py`), and two Markdown
fixers (`scripts/fix_md_spacing.py`, `scripts/fix_md_lint.py`).

Texts are modelled as `List Char` (wrapped in `String` at the API level).
Python's `re.sub` is modelled as a left-to-right scan emitting the
replacement at each (non-overlapping) match and advancing one character
when no match starts at the current position, exactly as CPython does.
Whitespace (`\s`) and digits (`\d`) are modelled over their ASCII ranges;
all inputs appearing in the theorems below are ASCII.
-/

namespace GraphDigitizerScripts

/-- Python's `\s` class restricted to ASCII: space, tab, newline,
carriage return, form feed, vertical tab. -/
def isPyWs (c : Char) : Bool :=
  c = ' ' || c = '\t' || c = '\n' || c = '\r' || c = '\x0c' || c = '\x0b'

/-! ## FenceSpacingFixer (`scripts/fix_md_spacing.py`)

`fence_start_re = re.compile(r'([^\n])\n(` ``` `)', re.M)`, replaced by
`\1\n\n\2`: a non-newline character, a newline, three backticks. -/

/-- One `re.sub` pass of `fence_start_re`: at each match emit the captured
character, two newlines and the three backticks, and resume after the
backticks; otherwise copy one character and slide. -/
def fenceStartSub : List Char → List Char
  | c :: '\n' :: '\x60' :: '\x60' :: '\x60' :: rest =>
      if c = '\n' then c :: fenceStartSub ('\n' :: '\x60' :: '\x60' :: '\x60' :: rest)
      else c :: '\n' :: '\n' :: '\x60' :: '\x60' :: '\x60' :: fenceStartSub rest
  | c :: rest => c :: fenceStartSub rest
  | [] => []

/-- One `re.sub` pass of `fence_end_re = re.compile(r'` ``` `\n([^\n`])', re.M)`
with replacement `` ```\n\n\1 ``: three backticks, newline, then a character
that is neither newline nor backtick. -/
def fenceEndSub : List Char → List Char
  | '\x60' :: '\x60' :: '\x60' :: '\n' :: c :: rest =>
      if c = '\n' || c = '\x60' then
        '\x60' :: fenceEndSub ('\x60' :: '\x60' :: '\n' :: c :: rest)
      else '\x60' :: '\x60' :: '\x60' :: '\n' :: '\n' :: c :: fenceEndSub rest
  | c :: rest => c :: fenceEndSub rest
  | [] => []

/-- Head of the list is `-` or `*` followed by a `\s` character
(first alternative of the list lookahead, after the `\s{0,3}` part). -/
def bulletAt : List Char → Bool
  | c :: d :: _ => (c = '-' || c = '*') && isPyWs d
  | _ => false

/-- After at least one digit: further digits, then `.` followed by `\s`
(tail of `\d+\.\s`; digits and `.` are disjoint so the greedy match
is forced). -/
def numTail : List Char → Bool
  | c :: rest => if c.isDigit then numTail rest else c = '.' && (match rest with
      | d :: _ => isPyWs d
      | [] => false)
  | [] => false

/-- Head of the list matches `\d+\.\s`. -/
def numberAt : List Char → Bool
  | c :: rest => c.isDigit && numTail rest
  | [] => false

/-- Head matches `[-\*]\s` or `\d+\.\s`. -/
def markerAt (l : List Char) : Bool := bulletAt l || numberAt l

/-- `lookK k l`: some `j ≤ k` leading `\s` characters of `l` are followed
by a list marker — the backtracking semantics of `\s{0,j}` inside the
lookahead `(?=(?:\s{0,3}[-\*]\s)|(?:\s{0,3}\d+\.\s))`. -/
def lookK : Nat → List Char → Bool
  | 0, l => markerAt l
  | k + 1, l => markerAt l || (match l with
      | c :: rest => isPyWs c && lookK k rest
      | [] => false)

/-- The lookahead of `list_re` at the given position. -/
def listLook (l : List Char) : Bool := lookK 3 l

/-- One `re.sub` pass of
`list_re = re.compile(r'([^\n])\n(?=(?:\s{0,3}[-\*]\s)|(?:\s{0,3}\d+\.\s))', re.M)`
with replacement `\1\n\n`: the lookahead is not consumed, so the scan
resumes right after the matched newline. -/
def listSub : List Char → List Char
  | c :: '\n' :: rest =>
      if c = '\n' then c :: listSub ('\n' :: rest)
      else if listLook rest then c :: '\n' :: '\n' :: listSub rest
      else c :: listSub ('\n' :: rest)
  | c :: rest => c :: listSub rest
  | [] => []

/-- The whole-file transformation of `fix_md_spacing.py`: the three
substitutions applied in sequence, each to the previous one's output
(the script reassigns `text` after each `sub`). -/
def spacingTransform (s : String) : String :=
  String.mk (listSub (fenceEndSub (fenceStartSub s.data)))

/-! ## LintStyleFixer (`scripts/fix_md_lint.py`) -/

/-- Head of the list is the literal `` ```text ``. -/
def tagAt : List Char → Bool
  | '\x60' :: '\x60' :: '\x60' :: 't' :: 'e' :: 'x' :: 't' :: _ => true
  | _ => false

/-- `text.replace('` ```text `', '` ``` `')`: non-overlapping left-to-right
replacement of the 7-character substring by three backticks.  A fuel
argument makes the recursion structural; each step consumes at least one
character, so fuel `l.length` never runs out (`replaceTagF_fuel` below
records that the result is fuel-independent from there on). -/
def replaceTagF : Nat → List Char → List Char
  | 0, l => l
  | _ + 1, [] => []
  | fuel + 1, c :: rest =>
      if tagAt (c :: rest) then '\x60' :: '\x60' :: '\x60' :: replaceTagF fuel (rest.drop 6)
      else c :: replaceTagF fuel rest

/-- `text.replace('` ```text `', '` ``` `')`. -/
def replaceTag (l : List Char) : List Char := replaceTagF l.length l

/-- A character admissible inside the URL body: `[^>\s]`. -/
def urlChar (c : Char) : Bool := !(c = '>' || isPyWs c)

/-- Maximal prefix of `[^>\s]` characters and the remainder. -/
def takeUrlRun : List Char → List Char × List Char
  | [] => ([], [])
  | c :: rest =>
      if urlChar c then
        let p := takeUrlRun rest
        (c :: p.1, p.2)
      else ([], c :: rest)

theorem takeUrlRun_snd_length (l : List Char) : (takeUrlRun l).2.length ≤ l.length := by
  induction l with
  | nil => simp [takeUrlRun]
  | cons c rest ih =>
      simp only [takeUrlRun]
      by_cases h : urlChar c = true
      · simp [h]; omega
      · simp [h]

/-- Match `[^>\s]+>` at the start of `rest3`; on success the captured URL is
`hd` (the scheme part) followed by the nonempty run, and the remainder is
everything after `>`.  `[^>\s]+` is greedy and `>` is excluded from the
class, so the match is forced. -/
def urlBody (hd rest3 : List Char) : Option (List Char × List Char) :=
  match takeUrlRun rest3 with
  | (c :: run, '>' :: rest4) => some (hd ++ c :: run, rest4)
  | _ => none

theorem urlBody_length {hd rest3 u r : List Char} (h : urlBody hd rest3 = some (u, r)) :
    r.length ≤ rest3.length := by
  unfold urlBody at h
  split at h
  next c run rest4 heq =>
    have hlen := takeUrlRun_snd_length rest3
    rw [heq] at hlen
    simp only [Option.some.injEq, Prod.mk.injEq] at h
    obtain ⟨-, h2⟩ := h
    subst h2
    simp at hlen
    omega
  next => exact absurd h (by simp)

/-- Attempt to match `(https?://[^>\s]+)>` (the part of
`url_re = re.compile(r'<(https?://[^>\s]+)>')` after the `<`); returns the
captured URL and the remainder after `>`.  The optional `s` is
deterministic: when the scheme is `https` the first arm applies, and the
regex backtracking alternative (empty `s?` against a literal `s`) fails. -/
def urlAfterLt (l : List Char) : Option (List Char × List Char) :=
  match l with
  | 'h' :: 't' :: 't' :: 'p' :: 's' :: ':' :: '/' :: '/' :: rest3 =>
      urlBody ['h', 't', 't', 'p', 's', ':', '/', '/'] rest3
  | 'h' :: 't' :: 't' :: 'p' :: ':' :: '/' :: '/' :: rest3 =>
      urlBody ['h', 't', 't', 'p', ':', '/', '/'] rest3
  | _ => none

theorem urlAfterLt_length {l u r : List Char} (h : urlAfterLt l = some (u, r)) :
    r.length ≤ l.length := by
  unfold urlAfterLt at h
  split at h
  next rest3 => have := urlBody_length h; simp; omega
  next rest3 => have := urlBody_length h; simp; omega
  next => exact absurd h (by simp)

/-- One `re.sub` pass of `url_re` with replacement `[\1](\1)`: at a match
(which can only start at a `<`) emit `[url](url)` and resume after the
closing `>`; otherwise copy one character and slide.  Fuel as in
`replaceTagF`; `urlSubF_fuel` below records that `l.length` suffices. -/
def urlSubF : Nat → List Char → List Char
  | 0, l => l
  | _ + 1, [] => []
  | fuel + 1, c :: rest =>
      if c = '<' then
        match urlAfterLt rest with
        | some (u, r2) => '[' :: (u ++ ']' :: '(' :: (u ++ ')' :: urlSubF fuel r2))
        | none => c :: urlSubF fuel rest
      else c :: urlSubF fuel rest

/-- One `re.sub` pass of `url_re` with replacement `[\1](\1)`. -/
def urlSub (l : List Char) : List Char := urlSubF l.length l

/-- The whole-file transformation of `fix_md_lint.py`: the tag replacement
followed by the URL rewriting (the script applies `replace` first,
then `url_re.sub`). -/
def lintTransform (s : String) : String :=
  String.mk (urlSub (replaceTag s.data))

/-! ## Per-file behaviour of the two fixers

A Markdown file is modelled by the outcome of `read_text` (`none` when
reading raises) together with the content of an existing `.bak` sibling
(`none` when no backup exists). -/

structure MdFile where
  readable : Option String
  bak : Option String
deriving DecidableEq

/-- `fix_md_spacing.py` lines 32-38 on one (readable) file: if the
transformed text differs, write the backup only when none exists
(`if not bak.exists(): bak.write_text(orig)`), rewrite the file, and
report it patched. -/
def spacingFileStep (text0 : String) (bak : Option String) :
    (String × Option String) × Bool :=
  let text := spacingTransform text0
  if text = text0 then ((text0, bak), false)
  else
    ((text, match bak with
      | none => some text0
      | some b => some b), true)

/-- `fix_md_lint.py` lines 16-30 on one file: an unreadable file is skipped
(`except Exception: continue`); otherwise, if the transformed text differs,
the script first rewrites `p` with `orig` when no backup exists (a no-op on
the content), then writes `orig` to the `.bak` path UNCONDITIONALLY —
despite its own comment "Write backup only if not exists" — and finally
rewrites the file. -/
def lintFileStep (f : MdFile) : MdFile × Bool :=
  match f.readable with
  | none => (f, false)
  | some text0 =>
      let text := lintTransform text0
      if text = text0 then (f, false)
      else ({ readable := some text, bak := some text0 }, true)

/-- The lint fixer's traversal: every file is processed independently. -/
def lintRun (fs : List MdFile) : List (MdFile × Bool) := fs.map lintFileStep

/-- The spacing fixer's traversal.  `p.read_text` is NOT wrapped in any
handler, so an unreadable file raises and aborts the whole run: the result
is the per-file outcomes of the files processed before the failure, plus a
flag recording whether the run aborted early. -/
def spacingRun : List MdFile → List (MdFile × Bool) × Bool
  | [] => ([], false)
  | f :: rest =>
      match f.readable with
      | none => ([], true)
      | some t =>
          let r := spacingFileStep t f.bak
          let rs := spacingRun rest
          ((⟨some r.1.1, r.1.2⟩, r.2) :: rs.1, rs.2)

/-! ## JavadocCoverageScanner (`.scripts/find_missing_javadoc.py`) -/

/-- Python `str.strip()` (ASCII whitespace). -/
def pyStrip (s : String) : String :=
  String.mk (((s.data.dropWhile isPyWs).reverse.dropWhile isPyWs).reverse)

/-- `pat` is a prefix of `l`. -/
def isPrefixCL : List Char → List Char → Bool
  | [], _ => true
  | _ :: _, [] => false
  | a :: as, b :: bs => a = b && isPrefixCL as bs

/-- `pat in l` (Python substring containment). -/
def hasSubstrCL (pat : List Char) : List Char → Bool
  | [] => isPrefixCL pat []
  | l@(_ :: rest) => isPrefixCL pat l || hasSubstrCL pat rest

/-- Python `s.startswith(pre)`. -/
def pyStartsWith (s pre : String) : Bool := isPrefixCL pre.data s.data

/-- `'/**' in line` — the raw (unstripped) line contains `/**`. -/
def hasMarker (line : String) : Bool := hasSubstrCL ['/', '*', '*'] line.data

/-- `line.strip()=='' or line.strip().startswith('*') or line.strip().startswith('/*')`
(line 16 of the scanner). -/
def blankStarSkip (line : String) : Bool :=
  (pyStrip line).data.isEmpty || isPrefixCL ['*'] (pyStrip line).data
    || isPrefixCL ['/', '*'] (pyStrip line).data

/-- `line.strip().startswith('//')` (line 18). -/
def slashSkip (line : String) : Bool := isPrefixCL ['/', '/'] (pyStrip line).data

/-- The loop's combined skip condition: the line `continue`s the backward
scan rather than `break`ing it. -/
def skipLine (line : String) : Bool := blankStarSkip line || slashSkip line

/-- The backward scan of lines 13-19, over the already-reversed window:
a line containing `/**` anywhere (checked BEFORE the skip tests) marks the
declaration documented; blank/`*`/`/*` lines and `//` lines are skipped;
any other line stops the scan (`if not startswith('//'): break`). -/
def scanLoop : List String → Bool
  | [] => false
  | line :: rest =>
      if hasMarker line then true
      else if blankStarSkip line then scanLoop rest
      else if slashSkip line then scanLoop rest
      else false

/-- A line consisting solely of whitespace. -/
def isWsOnlyLine (line : String) : Bool := line.data.all isPyWs

/-- Drop the maximal run of whitespace-only lines at the end. -/
def dropTrailingWsLines (ls : List String) : List String :=
  (ls.reverse.dropWhile isWsOnlyLine).reverse

/-- Python `l[-n:]`. -/
def lastN (n : Nat) (l : List α) : List α := l.drop (l.length - n)

/-- The window `before.rstrip('\n').split('\n')[-10:]` of line 11, where
`before = s[:m.start()]` for the first match of
`^(?:\s*)public\s+(class|record|enum|interface)\s+\w+` (re.M).  Because
`^` may anchor at the start of any whitespace-only line directly above the
declaration and `\s*` spans the rest, `m.start()` lands at the start of
that run, and `rstrip('\n')` strips the final newline; so the window is
the last 10 of the preceding lines after removing the whitespace-only run
adjacent to the declaration.  (When nothing remains, Python's
`''.split('\n')` yields `['']`, a blank line the loop skips — the same
outcome as the empty window used here.) -/
def prevWindow (prevLines : List String) : List String :=
  lastN 10 (dropTrailingWsLines prevLines)

/-- The scanner lists a file (given the lines preceding its first public
type declaration) iff the backward scan finds no `/**`. -/
def fileMissingDoc (prevLines : List String) : Bool :=
  !scanLoop (prevWindow prevLines).reverse

/-! ## LogEventViewer (`graph-digitizer-java/scripts/ingest_json_log.py`)

JSON values as produced by `json.loads`; `json.loads` itself is a library
function, so the viewer is parametrised by a parse function
`String → Option Json` (`none` models `json.JSONDecodeError`). -/

inductive Json where
  | obj (fields : List (String × Json))
  | str (s : String)
  | num (n : Int)
  | bool (b : Bool)
  | null
  | arr (elems : List Json)

/-- Python exceptions that the viewer can raise (uncaught). -/
inductive PyErr where
  | typeError
  | attributeError
deriving DecidableEq

/-- Dictionary lookup; `json.loads` keeps the LAST occurrence of a
duplicated key. -/
def lookupLast (k : String) (fs : List (String × Json)) : Option Json :=
  (fs.reverse.find? (fun p => p.1 == k)).map (fun p => p.2)

/-- `event.get(k)`: `None` for a missing key; raises `AttributeError` when
`event` is not a dict (`.get` does not exist on other JSON values). -/
def pyGet (e : Json) (k : String) : Except PyErr (Option Json) :=
  match e with
  | .obj fs => .ok (lookupLast k fs)
  | _ => .error .attributeError

/-- `str(x)` for a JSON value.  The `arr`/`obj` branches approximate
Python's full repr; no theorem below evaluates them. -/
def pyStr : Json → String
  | .str s => s
  | .num n => toString n
  | .bool b => if b then "True" else "False"
  | .null => "None"
  | .arr _ => "[list]"
  | .obj _ => "[dict]"

/-- `str(x)` where `x` may be Python `None` (a missing field). -/
def pyStrOpt : Option Json → String
  | none => "None"
  | some v => pyStr v

/-- Right-align in 5 columns (format spec `>5`). -/
def padTo5 (s : String) : String :=
  if 5 ≤ s.length then s else String.mk (List.replicate (5 - s.length) ' ') ++ s

/-- `f"{x:>5}"`: `None` (and `null`, lists, dicts) raise `TypeError`
(`object.__format__` rejects a non-empty format spec); strings are padded;
ints (and bools, which format as their int value) are rendered in decimal
and padded. -/
def pyFormat5 : Option Json → Except PyErr String
  | none => .error .typeError
  | some (.str s) => .ok (padTo5 s)
  | some (.num n) => .ok (padTo5 (toString n))
  | some (.bool b) => .ok (padTo5 (if b then "1" else "0"))
  | some .null => .error .typeError
  | some (.arr _) => .error .typeError
  | some (.obj _) => .error .typeError

/-- Line 43: `f"{event.get('time')} {event.get('level'):>5} {event.get('logger')} - {event.get('message')}"`,
fields evaluated and formatted left to right; the first raising
sub-expression aborts. -/
def formatEvent (e : Json) : Except PyErr String :=
  match pyGet e "time" with
  | .error err => .error err
  | .ok t =>
      match pyGet e "level" with
      | .error err => .error err
      | .ok lv =>
          match pyFormat5 lv with
          | .error err => .error err
          | .ok lvf =>
              match pyGet e "logger" with
              | .error err => .error err
              | .ok lg =>
                  match pyGet e "message" with
                  | .error err => .error err
                  | .ok ms =>
                      .ok (pyStrOpt t ++ " " ++ lvf ++ " " ++ pyStrOpt lg
                            ++ " - " ++ pyStrOpt ms)

/-- Python equality `value == f` for a string `f`: true only for an equal
string (no cross-type equality). -/
def jsonIsStrEq (v : Option Json) (f : String) : Bool :=
  match v with
  | some (.str s) => s == f
  | _ => false

/-- Line 39: `if args.level and event.get("level") != args.level: continue`.
An absent or empty `--level` is falsy, so the get is not even evaluated. -/
def levelPass (e : Json) (lf : Option String) : Except PyErr Bool :=
  match lf with
  | none => .ok true
  | some f =>
      if f = "" then .ok true
      else
        match pyGet e "level" with
        | .error err => .error err
        | .ok v => .ok (jsonIsStrEq v f)

/-- Line 41: `if args.logger and not event.get("logger", "").startswith(args.logger): continue`.
A missing field defaults to `""`; a non-string field has no `.startswith`
and raises `AttributeError`. -/
def loggerPass (e : Json) (gf : Option String) : Except PyErr Bool :=
  match gf with
  | none => .ok true
  | some g =>
      if g = "" then .ok true
      else
        match pyGet e "logger" with
        | .error err => .error err
        | .ok v =>
            match v with
            | none => .ok (pyStartsWith "" g)
            | some (.str s) => .ok (pyStartsWith s g)
            | some _ => .error .attributeError

/-- Both filter tests of lines 39-42 in order: the level test runs first
(and may raise); only when it lets the event through does the logger test
run. -/
def passes (e : Json) (lf gf : Option String) : Except PyErr Bool :=
  match levelPass e lf with
  | .error err => .error err
  | .ok p1 => if p1 then loggerPass e gf else .ok false

/-- One loop iteration of lines 38-44: `some line` when the event is
printed, `none` when a filter skips it. -/
def processEvent (e : Json) (lf gf : Option String) : Except PyErr (Option String) :=
  match passes e lf gf with
  | .error err => .error err
  | .ok p =>
      if p then
        match formatEvent e with
        | .error err => .error err
        | .ok line => .ok (some line)
      else .ok none

/-- `iter_events` (lines 20-29): strip each line, skip blank lines, parse
the rest, silently dropping lines whose parse fails. -/
def iterEvents (parse : String → Option Json) (lines : List String) : List Json :=
  lines.filterMap (fun l =>
    let s := pyStrip l
    if s = "" then none else parse s)

/-- The main loop over the parsed events: printed lines and the displayed
count; an uncaught exception aborts. -/
def processAll (lf gf : Option String) : List Json → Except PyErr (List String × Nat)
  | [] => .ok ([], 0)
  | e :: rest =>
      match processEvent e lf gf with
      | .error err => .error err
      | .ok r =>
          match processAll lf gf rest with
          | .error err => .error err
          | .ok (out, n) =>
              match r with
              | some line => .ok (line :: out, n + 1)
              | none => .ok (out, n)

/-- `main` (lines 31-49): result is the list of printed lines together
with the return code, or the uncaught exception. -/
def runMain (pathExists : Bool) (path : String) (parse : String → Option Json)
    (lines : List String) (lf gf : Option String) : Except PyErr (List String × Nat) :=
  if pathExists = false then .ok (["Log file not found: " ++ path], 1)
  else
    match processAll lf gf (iterEvents parse lines) with
    | .error err => .error err
    | .ok (out, n) => .ok (out ++ ["\nDisplayed " ++ toString n ++ " events"], 0)

/-! ## Auxiliary predicates used by the theorems -/

/-- Python truthiness of an optional string argument: absent and `""` are
both falsy. -/
def truthy : Option String → Bool
  | none => false
  | some s => s != ""

/-- The value is a JSON object (a Python dict). -/
def isObjB : Json → Bool
  | .obj _ => true
  | _ => false

/-- The event's `level` field is present and a string. -/
def levelStrB (fs : List (String × Json)) : Bool :=
  match lookupLast "level" fs with
  | some (.str _) => true
  | _ => false

/-- The event's `logger` field, when present, is a string (used as the
hypothesis of the amended filter-semantics theorem). -/
def loggerFieldStrB (fs : List (String × Json)) : Bool :=
  match lookupLast "logger" fs with
  | none => true
  | some (.str _) => true
  | _ => false

/-- The event's `level` field is present and a string, and — when the
logger filter is active — its `logger` field is a string or absent.  Under
these conditions one loop iteration of the viewer cannot raise. -/
def goodEventB (gf : Option String) (e : Json) : Bool :=
  match e with
  | .obj fs => levelStrB fs && (!truthy gf || loggerFieldStrB fs)
  | _ => false

/-- The event's `logger` field read as a string, an absent field giving
`""` (the `event.get("logger", "")` default). -/
def loggerStr (fs : List (String × Json)) : String :=
  match lookupLast "logger" fs with
  | some (.str s) => s
  | _ => ""

/-- The run's exit status: `some c` when `main` returns `c`, `none` when
an uncaught exception aborts the interpreter. -/
def exitCode (r : Except PyErr (List String × Nat)) : Option Nat :=
  match r with
  | .ok (_, c) => some c
  | .error _ => none

/-- Field access on an event regarded as a mapping (the spec's data
model), for stating the spec's filter clause. -/
def jField (e : Json) (k : String) : Option Json :=
  match e with
  | .obj fs => lookupLast k fs
  | _ => none

/-- Modelled from the words of claim C6: the event is displayed iff
(no level filter is given OR the level field equals the filter value)
AND (no logger filter is given OR the logger field starts with the
filter string). -/
def claimDisplayed (e : Json) (lf gf : Option String) : Bool :=
  (match lf with
   | none => true
   | some f => jsonIsStrEq (jField e "level") f) &&
  (match gf with
   | none => true
   | some g =>
      match jField e "logger" with
      | some (.str s) => pyStartsWith s g
      | _ => false)

/-- Modelled from the words of claim C3: scan backward, skipping
skippable lines and recording a `/**` marker seen on them; stop at the
first non-skippable line, which does NOT count toward the marker. -/
def claimScan : List String → Bool
  | [] => false
  | line :: rest =>
      if skipLine line then hasMarker line || claimScan rest
      else false

/-- Modelled from the words of claim C3: the file is listed iff the scan
over (at most) the 10 lines immediately preceding the declaration finds
no marker. -/
def claimMissingDoc (prevLines : List String) : Bool :=
  !claimScan (lastN 10 prevLines).reverse

/-- Some position of the text starts with the literal `` ```text ``. -/
def hasTag : List Char → Bool
  | [] => false
  | c :: rest => tagAt (c :: rest) || hasTag rest

/-- Some position of the text matches `url_re`. -/
def hasUrlMatch : List Char → Bool
  | [] => false
  | c :: rest => (c = '<' && (urlAfterLt rest).isSome) || hasUrlMatch rest

/-- `json.loads` restricted to the single line `"42"`
(`json.loads("42") == 42`, a JSON number, not an object). -/
def parseNum42 (s : String) : Option Json :=
  if s = "42" then some (Json.num 42) else none

/-- `json.loads` restricted to the single line `"\"x\""`
(a JSON string, not an object). -/
def parseStrX (s : String) : Option Json :=
  if s = "\"x\"" then some (Json.str "x") else none

/-- `json.loads` restricted to the one well-formed event line
`\x7b"level":"INFO"\x7d`. -/
def parseGoodEv (s : String) : Option Json :=
  if s = "\x7b\"level\":\"INFO\"\x7d" then some (Json.obj [("level", Json.str "INFO")])
  else none

/-! ## Helper lemmas -/

/-- The fuel of `replaceTagF` is irrelevant once it reaches the input's
length: every step consumes at least one character. -/
theorem replaceTagF_fuel (f1 : Nat) :
    ∀ (f2 : Nat) (l : List Char), l.length ≤ f1 → l.length ≤ f2 →
      replaceTagF f1 l = replaceTagF f2 l := by
  induction f1 with
  | zero =>
      intro f2 l h1 _
      have : l = [] := List.eq_nil_of_length_eq_zero (Nat.le_antisymm h1 (Nat.zero_le _))
      subst this
      cases f2 <;> rfl
  | succ f ih =>
      intro f2 l h1 h2
      cases l with
      | nil => cases f2 <;> rfl
      | cons c rest =>
          cases f2 with
          | zero => simp at h2
          | succ g =>
              simp only [List.length_cons, Nat.succ_le_succ_iff] at h1 h2
              by_cases ht : tagAt (c :: rest) = true
              · simp only [replaceTagF, ht, if_true]
                rw [ih g (rest.drop 6) (by simp; omega) (by simp; omega)]
              · have ht' : tagAt (c :: rest) = false := by simpa using ht
                simp only [replaceTagF, ht', Bool.false_eq_true, if_false]
                rw [ih g rest h1 h2]

/-- The fuel of `urlSubF` is irrelevant once it reaches the input's
length: a match consumes the whole `<...>` region and a non-match
consumes one character. -/
theorem urlSubF_fuel (f1 : Nat) :
    ∀ (f2 : Nat) (l : List Char), l.length ≤ f1 → l.length ≤ f2 →
      urlSubF f1 l = urlSubF f2 l := by
  induction f1 with
  | zero =>
      intro f2 l h1 _
      have : l = [] := List.eq_nil_of_length_eq_zero (Nat.le_antisymm h1 (Nat.zero_le _))
      subst this
      cases f2 <;> rfl
  | succ f ih =>
      intro f2 l h1 h2
      cases l with
      | nil => cases f2 <;> rfl
      | cons c rest =>
          cases f2 with
          | zero => simp at h2
          | succ g =>
              simp only [List.length_cons, Nat.succ_le_succ_iff] at h1 h2
              by_cases hc : c = '<'
              · rcases hm : urlAfterLt rest with - | ⟨u, r2⟩
                · simp only [urlSubF, hc, if_true, hm]
                  rw [ih g rest h1 h2]
                · have hr2 : r2.length ≤ rest.length := urlAfterLt_length hm
                  simp only [urlSubF, hc, if_true, hm]
                  rw [ih g r2 (by omega) (by omega)]
              · have hc' : (c = '<') = False := by simp [hc]
                simp only [urlSubF, hc', if_false]
                rw [ih g rest h1 h2]

theorem replaceTagF_fix (fuel : Nat) :
    ∀ l : List Char, hasTag l = false → replaceTagF fuel l = l := by
  induction fuel with
  | zero => intro l _; rfl
  | succ f ih =>
      intro l h
      cases l with
      | nil => rfl
      | cons c rest =>
          rw [hasTag] at h
          obtain ⟨h1, h2⟩ := Bool.or_eq_false_iff.mp h
          simp only [replaceTagF, h1, Bool.false_eq_true, if_false]
          rw [ih rest h2]

/-- A text with no occurrence of `` ```text `` is a fixed point of the
tag replacement. -/
theorem replaceTag_fix (l : List Char) (h : hasTag l = false) : replaceTag l = l :=
  replaceTagF_fix l.length l h

theorem urlSubF_fix (fuel : Nat) :
    ∀ l : List Char, hasUrlMatch l = false → urlSubF fuel l = l := by
  induction fuel with
  | zero => intro l _; rfl
  | succ f ih =>
      intro l h
      cases l with
      | nil => rfl
      | cons c rest =>
          rw [hasUrlMatch] at h
          obtain ⟨h1, h2⟩ := Bool.or_eq_false_iff.mp h
          by_cases hc : c = '<'
          · have hnone : urlAfterLt rest = none := by
              cases hu : urlAfterLt rest with
              | none => rfl
              | some v => simp [hc, hu] at h1
            simp only [urlSubF, hc, if_true, hnone]
            rw [ih rest h2]
          · simp only [urlSubF, hc, if_false]
            rw [ih rest h2]

/-- A text with no `url_re` match is a fixed point of the URL rewrite. -/
theorem urlSub_fix (l : List Char) (h : hasUrlMatch l = false) : urlSub l = l :=
  urlSubF_fix l.length l h

/-! ## The claims -/

/-- C1: the claim asserts that `fix_md_spacing.py`'s transformation is
idempotent, so that a second run patches nothing.  The code violates its
own intent ("Add blank line before lists if missing"): `\s` in the
lookahead of `list_re` also matches a newline, so a blank line already
present before a list item still matches and every run inserts one more.
On the file `"a\n- x\n"` the first run yields `"a\n\n- x\n"`, and a second
run patches the file again, yielding `"a\n\n\n- x\n"`. -/
theorem c1_spacing_second_run_patches_again :
    spacingTransform "a\n- x\n" = "a\n\n- x\n" ∧
    spacingTransform "a\n\n- x\n" = "a\n\n\n- x\n" ∧
    (spacingFileStep "a\n\n- x\n" (some "a\n- x\n")).2 = true :=
  ⟨rfl, rfl, rfl⟩

/-- C2: the claim asserts that neither fixer overwrites an already-existing
backup.  `fix_md_lint.py` line 29 — directly under its own comment
"Write backup only if not exists" — writes the `.bak` file
unconditionally: patching a file whose backup already holds `"OLD"`
replaces that backup with the current run's pre-transform content. -/
theorem c2_lint_overwrites_existing_backup :
    lintFileStep { readable := some "<https://x.com>", bak := some "OLD" } =
      ({ readable := some "[https://x.com](https://x.com)",
         bak := some "<https://x.com>" }, true) :=
  rfl

/-- C9 (confirmed): when the transformed content equals the original,
both fixers leave the file untouched, create no backup, and do not count
the file as patched. -/
theorem c9_noop_frame :
    (∀ c b, spacingTransform c = c → spacingFileStep c b = ((c, b), false)) ∧
    (∀ c b, lintTransform c = c →
        lintFileStep { readable := some c, bak := b } =
          ({ readable := some c, bak := b }, false)) := by
  constructor
  · intro c b h
    simp [spacingFileStep, h]
  · intro c b h
    simp [lintFileStep, h]

/-- Witness for C9 at the one-line file `"hello\n"`, which both
transformations leave unchanged. -/
theorem c9_noop_frame_witness :
    spacingFileStep "hello\n" none = (("hello\n", none), false) ∧
    lintFileStep { readable := some "hello\n", bak := none } =
      ({ readable := some "hello\n", bak := none }, false) :=
  ⟨c9_noop_frame.1 "hello\n" none rfl, c9_noop_frame.2 "hello\n" none rfl⟩

/-- C8 counterexample: re-applying `fix_md_lint.py`'s transformation is
NOT always a no-op.  `str.replace` removes non-overlapping occurrences
left to right, so `"` ```texttext `"` becomes `"` ```text `"` — which a
second application reduces further to `"` ``` `"`. -/
theorem c8_reapply_counterexample :
    lintTransform "```texttext" = "```text" ∧
    lintTransform "```text" = "```" ∧
    lintTransform (lintTransform "```texttext") ≠ lintTransform "```texttext" :=
  ⟨rfl, rfl, by decide⟩

/-- C8 amended: the tag `"` ```text `"` is rewritten to a bare
triple-backtick and an angle-bracket URL to a self-labelled link, and
re-application is a no-op PROVIDED the first output contains no further
occurrence of the literal `` ```text `` and no further `url_re` match
(a replacement can expose a new occurrence, as the counterexample
shows). -/
theorem c8_lint_roundtrip_amended :
    lintTransform "```text" = "```" ∧
    lintTransform "<https://x.com>" = "[https://x.com](https://x.com)" ∧
    ∀ s, hasTag (lintTransform s).data = false →
      hasUrlMatch (lintTransform s).data = false →
      lintTransform (lintTransform s) = lintTransform s := by
  refine ⟨rfl, rfl, fun s h1 h2 => ?_⟩
  show String.mk (urlSub (replaceTag (lintTransform s).data)) = lintTransform s
  rw [replaceTag_fix _ h1, urlSub_fix _ h2]

/-- Witness for C8 amended on a file containing one tag and one URL. -/
theorem c8_lint_roundtrip_witness :
    lintTransform (lintTransform "a ```text b <https://x.com> c") =
      lintTransform "a ```text b <https://x.com> c" :=
  c8_lint_roundtrip_amended.2.2 "a ```text b <https://x.com> c" (by decide) (by decide)

/-- The backward scan returns `true` exactly when some line of the window
carries a `/**` marker and every line scanned before it (every earlier
element of the reversed window) is skippable. -/
theorem scanLoop_iff (rw : List String) :
    scanLoop rw = true ↔
      ∃ pre line post, rw = pre ++ line :: post ∧
        hasMarker line = true ∧ pre.all skipLine = true := by
  induction rw with
  | nil =>
      constructor
      · intro h; simp [scanLoop] at h
      · rintro ⟨pre, line, post, h, -, -⟩
        cases pre <;> simp at h
  | cons l rest ih =>
      by_cases hm : hasMarker l = true
      · constructor
        · intro _
          exact ⟨[], l, rest, by simp, hm, by simp⟩
        · intro _
          simp [scanLoop, hm]
      · have hm' : hasMarker l = false := by simpa using hm
        by_cases hs : skipLine l = true
        · have hstep : scanLoop (l :: rest) = scanLoop rest := by
            by_cases hb : blankStarSkip l = true
            · simp [scanLoop, hm', hb]
            · have hb' : blankStarSkip l = false := by simpa using hb
              have hsl : slashSkip l = true := by
                simp [skipLine, hb'] at hs
                exact hs
              simp [scanLoop, hm', hb', hsl]
          rw [hstep, ih]
          constructor
          · rintro ⟨pre, line, post, hdec, hmk, hall⟩
            exact ⟨l :: pre, line, post, by simp [hdec], hmk, by simp [hall, hs]⟩
          · rintro ⟨pre, line, post, hdec, hmk, hall⟩
            cases pre with
            | nil =>
                simp at hdec
                obtain ⟨h1, -⟩ := hdec
                rw [← h1] at hmk
                exact absurd hmk (by simp [hm'])
            | cons p ps =>
                simp at hdec
                obtain ⟨-, hrest⟩ := hdec
                simp at hall
                exact ⟨ps, line, post, hrest, hmk, List.all_eq_true.mpr hall.2⟩
        · have hs' : skipLine l = false := by simpa using hs
          have hb : blankStarSkip l = false := (Bool.or_eq_false_iff.mp hs').1
          have hsl : slashSkip l = false := (Bool.or_eq_false_iff.mp hs').2
          constructor
          · intro h
            simp [scanLoop, hm', hb, hsl] at h
          · rintro ⟨pre, line, post, hdec, hmk, hall⟩
            cases pre with
            | nil =>
                simp at hdec
                obtain ⟨h1, -⟩ := hdec
                rw [← h1] at hmk
                exact absurd hmk (by simp [hm'])
            | cons p ps =>
                simp at hdec
                obtain ⟨h1, -⟩ := hdec
                simp at hall
                rw [← h1] at hall
                exact absurd hall.1 (by simp [hs'])

/-- C3 counterexample: on a file whose declaration is directly preceded by
the single line `"int x = 1; /** weird"` — a non-skippable line that
contains `/**` without being a `/**` opener — the scanner does NOT list
the file (the code tests `'/**' in line` before the skippability tests),
while the claim's described scan stops at that line without finding a
marker and therefore requires the file to be listed. -/
theorem c3_scan_counterexample :
    fileMissingDoc ["int x = 1; /** weird"] = false ∧
    claimMissingDoc ["int x = 1; /** weird"] = true :=
  ⟨rfl, rfl⟩

/-- C3 amended: the scanner lists a file if and only if no line of the
window carries a `/**` marker ANYWHERE on it (even a line at which the
scan would stop) reachable through skippable lines — where the window is
the last 10 of the lines preceding the declaration after dropping the run
of whitespace-only lines directly above it (those are absorbed by the
declaration matcher's `^(?:\s*)` and `rstrip`). -/
theorem c3_scan_amended (prevLines : List String) :
    fileMissingDoc prevLines = true ↔
      ¬ ∃ pre line post,
          (prevWindow prevLines).reverse = pre ++ line :: post ∧
          hasMarker line = true ∧ pre.all skipLine = true := by
  unfold fileMissingDoc
  rw [Bool.not_eq_true']
  rw [Bool.eq_false_iff]
  exact not_congr (scanLoop_iff _)

/-! ## Viewer helper lemmas -/

/-- On a dict event the level test never raises; it computes the
spec-shaped boolean with Python truthiness of the filter. -/
theorem levelPass_obj_eq (fs : List (String × Json)) (lf : Option String) :
    levelPass (Json.obj fs) lf =
      .ok (match lf with
           | none => true
           | some f => (f == "") || jsonIsStrEq (lookupLast "level" fs) f) := by
  cases lf with
  | none => rfl
  | some f =>
      by_cases hf : f = ""
      · subst hf
        simp [levelPass]
      · simp [levelPass, hf, pyGet, beq_iff_eq]

/-- On a dict event whose logger field (when present) is a string, the
logger test never raises; an absent field behaves as `""`. -/
theorem loggerPass_obj_eq (fs : List (String × Json)) (gf : Option String)
    (h : loggerFieldStrB fs = true) :
    loggerPass (Json.obj fs) gf =
      .ok (match gf with
           | none => true
           | some g => (g == "") || pyStartsWith (loggerStr fs) g) := by
  cases gf with
  | none => rfl
  | some g =>
      by_cases hg : g = ""
      · subst hg
        simp [loggerPass]
      · rcases hl : lookupLast "logger" fs with - | v
        · simp [loggerPass, hg, pyGet, hl, loggerStr, beq_iff_eq]
        · rcases v with fs2 | s | n | b | - | xs
          · simp [loggerFieldStrB, hl] at h
          · simp [loggerPass, hg, pyGet, hl, loggerStr, beq_iff_eq]
          · simp [loggerFieldStrB, hl] at h
          · simp [loggerFieldStrB, hl] at h
          · simp [loggerFieldStrB, hl] at h
          · simp [loggerFieldStrB, hl] at h

/-- The combined filter on a dict event with string-or-absent logger:
never raises, and computes the conjunction of the two spec-shaped tests. -/
theorem passes_obj_eq (fs : List (String × Json)) (lf gf : Option String)
    (h : loggerFieldStrB fs = true) :
    passes (Json.obj fs) lf gf =
      .ok (((match lf with
             | none => true
             | some f => (f == "") || jsonIsStrEq (lookupLast "level" fs) f) : Bool) &&
           (match gf with
            | none => true
            | some g => (g == "") || pyStartsWith (loggerStr fs) g)) := by
  simp only [passes, levelPass_obj_eq]
  cases hX : (match lf with
              | none => true
              | some f => (f == "") || jsonIsStrEq (lookupLast "level" fs) f : Bool) with
  | false => simp
  | true => simp [loggerPass_obj_eq fs gf h]

theorem levelStrB_ex (fs : List (String × Json)) (h : levelStrB fs = true) :
    ∃ s, lookupLast "level" fs = some (Json.str s) := by
  unfold levelStrB at h
  cases hl : lookupLast "level" fs with
  | none => rw [hl] at h; simp at h
  | some v =>
      rw [hl] at h
      cases v with
      | obj fs2 => simp at h
      | str s => exact ⟨s, rfl⟩
      | num n => simp at h
      | bool b => simp at h
      | null => simp at h
      | arr xs => simp at h

/-- Formatting a dict event whose `level` is the string `s`: every other
field degrades to `str(None) = "None"` when missing, and the line is
produced. -/
theorem formatEvent_obj_level_str (fs : List (String × Json)) (s : String)
    (h : lookupLast "level" fs = some (Json.str s)) :
    formatEvent (Json.obj fs) =
      .ok (pyStrOpt (lookupLast "time" fs) ++ " " ++ padTo5 s ++ " "
            ++ pyStrOpt (lookupLast "logger" fs) ++ " - "
            ++ pyStrOpt (lookupLast "message" fs)) := by
  simp [formatEvent, pyGet, h, pyFormat5]

/-- Formatting a dict event with no `level` field raises `TypeError`
(`f"{None:>5}"`). -/
theorem formatEvent_obj_level_missing (fs : List (String × Json))
    (h : lookupLast "level" fs = none) :
    formatEvent (Json.obj fs) = .error PyErr.typeError := by
  simp [formatEvent, pyGet, h, pyFormat5]

theorem pyGet_nonobj (e : Json) (he : isObjB e = false) (k : String) :
    pyGet e k = .error PyErr.attributeError := by
  cases e <;> first
  | rfl
  | simp [isObjB] at he

theorem passes_nonobj (e : Json) (he : isObjB e = false) (lf gf : Option String) :
    passes e lf gf = .error PyErr.attributeError ∨ passes e lf gf = .ok true := by
  have hlv : levelPass e lf = .error PyErr.attributeError ∨ levelPass e lf = .ok true := by
    cases lf with
    | none => exact .inr rfl
    | some f =>
        by_cases hf : f = ""
        · exact .inr (by simp [levelPass, hf])
        · exact .inl (by simp [levelPass, hf, pyGet_nonobj e he])
  have hlg : loggerPass e gf = .error PyErr.attributeError ∨ loggerPass e gf = .ok true := by
    cases gf with
    | none => exact .inr rfl
    | some g =>
        by_cases hg : g = ""
        · exact .inr (by simp [loggerPass, hg])
        · exact .inl (by simp [loggerPass, hg, pyGet_nonobj e he])
  rcases hlv with h1 | h1
  · exact .inl (by simp [passes, h1])
  · rcases hlg with h2 | h2
    · exact .inl (by simp [passes, h1, h2])
    · exact .inr (by simp [passes, h1, h2])

/-- A parsed value that is not a dict always aborts its loop iteration
with `AttributeError` — either inside an active filter's `event.get`, or
at the print's `event.get('time')`. -/
theorem processEvent_nonobj (e : Json) (he : isObjB e = false) (lf gf : Option String) :
    processEvent e lf gf = .error PyErr.attributeError := by
  have hfmt : formatEvent e = .error PyErr.attributeError := by
    simp [formatEvent, pyGet_nonobj e he]
  rcases passes_nonobj e he lf gf with h | h
  · simp [processEvent, h]
  · simp [processEvent, h, hfmt]

theorem processAll_error (lf gf : Option String) (events : List Json)
    (h : events.any (fun e => !isObjB e) = true) :
    ∃ err, processAll lf gf events = .error err := by
  induction events with
  | nil => simp at h
  | cons e rest ih =>
      rw [List.any_cons] at h
      rcases Bool.or_eq_true_iff.mp h with h1 | h2
      · have hob : isObjB e = false := by simpa using h1
        exact ⟨PyErr.attributeError, by simp [processAll, processEvent_nonobj e hob lf gf]⟩
      · obtain ⟨err, herr⟩ := ih h2
        rcases hpe : processEvent e lf gf with err2 | r
        · exact ⟨err2, by simp [processAll, hpe]⟩
        · exact ⟨err, by simp [processAll, hpe, herr]⟩

theorem passes_obj_ok (fs : List (String × Json)) (lf gf : Option String)
    (h : truthy gf = false ∨ loggerFieldStrB fs = true) :
    ∃ p, passes (Json.obj fs) lf gf = .ok p := by
  have hb2 : ∃ b2, loggerPass (Json.obj fs) gf = .ok b2 := by
    rcases h with h1 | h1
    · cases gf with
      | none => exact ⟨true, rfl⟩
      | some g =>
          have hg0 : g = "" := by simpa [truthy] using h1
          exact ⟨true, by simp [loggerPass, hg0]⟩
    · exact ⟨_, loggerPass_obj_eq fs gf h1⟩
  obtain ⟨b2, hb2⟩ := hb2
  cases hX : (match lf with
              | none => true
              | some f => (f == "") || jsonIsStrEq (lookupLast "level" fs) f : Bool) with
  | false => exact ⟨false, by simp [passes, levelPass_obj_eq, hX]⟩
  | true => exact ⟨b2, by simp [passes, levelPass_obj_eq, hX, hb2]⟩

/-- A well-formed event's loop iteration never raises. -/
theorem processEvent_good (gf : Option String) (e : Json) (hg : goodEventB gf e = true)
    (lf : Option String) : ∃ r, processEvent e lf gf = .ok r := by
  cases e with
  | obj fs =>
      rw [goodEventB, Bool.and_eq_true] at hg
      obtain ⟨hlv, hrest⟩ := hg
      obtain ⟨s, hs⟩ := levelStrB_ex fs hlv
      have hfmt := formatEvent_obj_level_str fs s hs
      have hdisj : truthy gf = false ∨ loggerFieldStrB fs = true := by
        rcases Bool.or_eq_true_iff.mp hrest with h1 | h1
        · exact .inl (by simpa using h1)
        · exact .inr h1
      obtain ⟨p, hp⟩ := passes_obj_ok fs lf gf hdisj
      cases p with
      | false => exact ⟨none, by simp [processEvent, hp]⟩
      | true =>
          exact ⟨some (pyStrOpt (lookupLast "time" fs) ++ " " ++ padTo5 s ++ " "
              ++ pyStrOpt (lookupLast "logger" fs) ++ " - "
              ++ pyStrOpt (lookupLast "message" fs)),
            by simp [processEvent, hp, hfmt]⟩
  | str s => simp [goodEventB] at hg
  | num n => simp [goodEventB] at hg
  | bool b => simp [goodEventB] at hg
  | null => simp [goodEventB] at hg
  | arr xs => simp [goodEventB] at hg

theorem processAll_ok (lf gf : Option String) (events : List Json)
    (h : events.all (goodEventB gf) = true) :
    ∃ p, processAll lf gf events = .ok p := by
  induction events with
  | nil => exact ⟨([], 0), rfl⟩
  | cons e rest ih =>
      rw [List.all_cons, Bool.and_eq_true] at h
      obtain ⟨h1, h2⟩ := h
      obtain ⟨r, hr⟩ := processEvent_good gf e h1 lf
      obtain ⟨⟨out, n⟩, hrest⟩ := ih h2
      cases r with
      | some line => exact ⟨(line :: out, n + 1), by simp [processAll, hr, hrest]⟩
      | none => exact ⟨(out, n), by simp [processAll, hr, hrest]⟩

/-! ## Viewer claims -/

/-- C4 counterexample: the event
`\x7b"time":"t1","logger":"a.b","message":"x"\x7d` (no `level` field)
passes the empty filters, yet the print line raises `TypeError` —
`f"\x7bNone:>5\x7d"` rejects the format spec — instead of printing with a
placeholder, aborting the run. -/
theorem c4_missing_level_counterexample :
    passes (Json.obj [("time", Json.str "t1"), ("logger", Json.str "a.b"),
      ("message", Json.str "x")]) none none = .ok true ∧
    processEvent (Json.obj [("time", Json.str "t1"), ("logger", Json.str "a.b"),
      ("message", Json.str "x")]) none none = .error PyErr.typeError :=
  ⟨rfl, rfl⟩

/-- C4 amended: a passing dict event whose `level` field is a string `s`
is printed as `<time> <s right-aligned to 5> <logger> - <message>` with
`str(None) = "None"` as the placeholder for any missing among `time`,
`logger`, `message`; but an ABSENT `level` raises `TypeError` at the
format spec `>5` and aborts instead of printing. -/
theorem c4_print_format_amended :
    (∀ fs s, lookupLast "level" fs = some (Json.str s) →
        formatEvent (Json.obj fs) =
          .ok (pyStrOpt (lookupLast "time" fs) ++ " " ++ padTo5 s ++ " "
                ++ pyStrOpt (lookupLast "logger" fs) ++ " - "
                ++ pyStrOpt (lookupLast "message" fs))) ∧
    (∀ fs, lookupLast "level" fs = none →
        formatEvent (Json.obj fs) = .error PyErr.typeError) :=
  ⟨formatEvent_obj_level_str, formatEvent_obj_level_missing⟩

/-- Witness for C4 amended: one event with only a `level`, one with no
`level`. -/
theorem c4_print_format_witness :
    formatEvent (Json.obj [("level", Json.str "ERROR")]) =
      .ok "None ERROR None - None" ∧
    formatEvent (Json.obj [("message", Json.str "m")]) = .error PyErr.typeError := by
  constructor
  · rw [c4_print_format_amended.1 [("level", Json.str "ERROR")] "ERROR" rfl]
    rfl
  · exact c4_print_format_amended.2 [("message", Json.str "m")] rfl

/-- C5 counterexample: the log file exists and holds the single line
`42`, valid JSON that is not an object; the run neither completes the scan
nor exits 0 — it aborts with an uncaught `AttributeError`. -/
theorem c5_exit_counterexample :
    runMain true "logs/graph-digitizer.json" parseNum42 ["42"] none none =
      .error PyErr.attributeError :=
  rfl

/-- C5 amended: the viewer prints the not-found message and returns 1
exactly when the path does not exist; when the path exists it completes
the scan and exits 0 PROVIDED every parsed event is a JSON object whose
`level` field is a present string and whose `logger` field is a string or
absent whenever a logger filter is active — otherwise an uncaught
exception aborts the interpreter (which is also a nonzero exit, without
the not-found message). -/
theorem c5_exit_codes_amended :
    (∀ path (parse : String → Option Json) lines lf gf,
        runMain false path parse lines lf gf =
          .ok (["Log file not found: " ++ path], 1)) ∧
    (∀ path (parse : String → Option Json) lines lf gf,
        (iterEvents parse lines).all (goodEventB gf) = true →
        exitCode (runMain true path parse lines lf gf) = some 0) := by
  constructor
  · intro path parse lines lf gf
    rfl
  · intro path parse lines lf gf h
    obtain ⟨⟨out, n⟩, hall⟩ := processAll_ok lf gf _ h
    simp [runMain, exitCode, hall]

/-- Witness for C5 amended: a missing path, and an existing file with one
well-formed event line. -/
theorem c5_exit_codes_witness :
    runMain false "logs/graph-digitizer.json" parseNum42 [] none none =
      .ok (["Log file not found: logs/graph-digitizer.json"], 1) ∧
    exitCode (runMain true "logs/graph-digitizer.json" parseGoodEv
      ["\x7b\"level\":\"INFO\"\x7d"] none none) = some 0 := by
  constructor
  · rw [c5_exit_codes_amended.1 "logs/graph-digitizer.json" parseNum42 [] none none]
    rfl
  · exact c5_exit_codes_amended.2 "logs/graph-digitizer.json" parseGoodEv
      ["\x7b\"level\":\"INFO\"\x7d"] none none rfl

/-- C6 counterexample: with `--level ""` (an empty-string level filter IS
given) and an event whose level is `"INFO"`, the claim's predicate says
the event must not be displayed (`"INFO" ≠ ""`), but the code treats the
falsy `args.level` as no filter and displays it. -/
theorem c6_empty_filter_counterexample :
    passes (Json.obj [("level", Json.str "INFO")]) (some "") none = .ok true ∧
    processEvent (Json.obj [("level", Json.str "INFO")]) (some "") none =
      .ok (some "None  INFO None - None") ∧
    claimDisplayed (Json.obj [("level", Json.str "INFO")]) (some "") none = false :=
  ⟨rfl, rfl, rfl⟩

/-- C6 amended: for a dict event whose logger field (when present) is a
string, the event passes the filters iff (the level filter is absent OR
EMPTY, or the level field equals it) and (the logger filter is absent OR
EMPTY, or the logger field — absent defaulting to `""` — starts with it);
a non-string logger field under an active logger filter would instead
raise, and a passing event is then printed subject to C4. -/
theorem c6_filter_semantics_amended (fs : List (String × Json)) (lf gf : Option String)
    (h : loggerFieldStrB fs = true) :
    passes (Json.obj fs) lf gf =
      .ok (((match lf with
             | none => true
             | some f => (f == "") || jsonIsStrEq (lookupLast "level" fs) f) : Bool) &&
           (match gf with
            | none => true
            | some g => (g == "") || pyStartsWith (loggerStr fs) g)) :=
  passes_obj_eq fs lf gf h

/-- Witness for C6 amended: level filter `ERROR`, logger filter `a`, event
`\x7b"level":"ERROR","logger":"a.b"\x7d`. -/
theorem c6_filter_semantics_witness :
    passes (Json.obj [("level", Json.str "ERROR"), ("logger", Json.str "a.b")])
      (some "ERROR") (some "a") = .ok true := by
  rw [c6_filter_semantics_amended [("level", Json.str "ERROR"),
    ("logger", Json.str "a.b")] (some "ERROR") (some "a") rfl]
  rfl

/-- C7 counterexample: on a traversal whose first Markdown file is
unreadable and whose second is fine, the lint fixer skips the first and
still visits the second, but the spacing fixer — whose `read_text` is not
wrapped in any handler — aborts the whole run, never reaching the second
file. -/
theorem c7_unreadable_counterexample :
    spacingRun [{ readable := none, bak := none },
      { readable := some "x", bak := none }] = ([], true) ∧
    lintRun [{ readable := none, bak := none },
      { readable := some "x", bak := none }] =
      [({ readable := none, bak := none }, false),
       ({ readable := some "x", bak := none }, false)] :=
  ⟨rfl, rfl⟩

/-- C7 amended: a non-blank log line that fails to parse is silently
dropped and the scan continues; an unreadable Markdown file is silently
skipped by the LINT fixer and its traversal continues; the SPACING fixer
has no such handler — an unreadable file raises and aborts its run. -/
theorem c7_recoverable_amended :
    (∀ (parse : String → Option Json) lines l, pyStrip l ≠ "" →
        parse (pyStrip l) = none →
        iterEvents parse (l :: lines) = iterEvents parse lines) ∧
    (∀ f rest, f.readable = none → lintRun (f :: rest) = (f, false) :: lintRun rest) ∧
    (∀ f rest, f.readable = none → spacingRun (f :: rest) = ([], true)) := by
  refine ⟨?_, ?_, ?_⟩
  · intro parse lines l h1 h2
    simp [iterEvents, h1, h2]
  · intro f rest h
    simp [lintRun, lintFileStep, h]
  · intro f rest h
    simp [spacingRun, h]

/-- Witness for C7 amended at a malformed line and an unreadable file. -/
theorem c7_recoverable_witness :
    iterEvents (fun _ => none) ["notjson"] = iterEvents (fun _ => none) [] ∧
    lintRun [{ readable := none, bak := some "b" }] =
      ({ readable := none, bak := some "b" }, false) :: lintRun [] ∧
    spacingRun [{ readable := none, bak := some "b" }] = ([], true) :=
  ⟨c7_recoverable_amended.1 (fun _ => none) [] "notjson" (by decide) rfl,
   c7_recoverable_amended.2.1 { readable := none, bak := some "b" } [] rfl,
   c7_recoverable_amended.2.2 { readable := none, bak := some "b" } [] rfl⟩

/-- C10 (confirmed): only `json.JSONDecodeError` is caught, so a non-blank
line parsing to a non-object JSON value is yielded like any other event,
and the dict-style `event.get` on it raises an uncaught `AttributeError`
that aborts the run. -/
theorem c10_nonobject_event_aborts :
    (∀ (parse : String → Option Json) lines l v,
        pyStrip l ≠ "" → parse (pyStrip l) = some v →
        iterEvents parse (l :: lines) = v :: iterEvents parse lines) ∧
    (∀ path (parse : String → Option Json) lines lf gf,
        (iterEvents parse lines).any (fun e => !isObjB e) = true →
        ∃ err, runMain true path parse lines lf gf = .error err) := by
  constructor
  · intro parse lines l v h1 h2
    simp [iterEvents, h1, h2]
  · intro path parse lines lf gf h
    obtain ⟨err, herr⟩ := processAll_error lf gf _ h
    exact ⟨err, by simp [runMain, herr]⟩

/-- Witness for C10 on the existing file holding the one line `"x"` — a
JSON string, not an object. -/
theorem c10_nonobject_event_aborts_witness :
    ∃ err, runMain true "logs/graph-digitizer.json" parseStrX ["\"x\""] none none =
      .error err :=
  c10_nonobject_event_aborts.2 "logs/graph-digitizer.json" parseStrX ["\"x\""]
    none none rfl

end GraphDigitizerScripts
